import Mathlib

/-!
# Modbus polling bridge: `assets/js/server.js`

A shallow embedding of the server of the 3D pump-station map.  The server keeps
three module-level variables (`dataBuffer`, `modbusLoopInterval`, `retryCount`)
and one Modbus client.  Every function of the source becomes a function on an
explicit `State`; the calls it makes on the outside world (the Modbus client,
timers, socket.io, the console) are appended, in program order, to
`State.trace`.  What the outside world answers (whether a connect or a close
throws, what each register read returns) is taken as an explicit parameter.

Each function is modelled as one run to completion: the interleaving of
several asynchronous callbacks is not part of this development.
-/

namespace PumpStation

/-! ## Data model -/

/-- One slot of a JavaScript array of register values: a number, or
`undefined` for a hole left by a write past the end of the array. -/
inductive JSValue where
  | num (n : Int)
  | undefined
  deriving DecidableEq

/-- An entry of `CONFIG.REGISTER_RANGES`. -/
structure RegisterRange where
  start : Nat
  length : Nat
  name : String
  deriving DecidableEq

/-- The shape of the `CONFIG` object. -/
structure Config where
  MODBUS_HOST : String
  MODBUS_PORT : Nat
  MODBUS_ID : Nat
  SERVER_PORT : Nat
  MAX_RETRIES : Nat
  RETRY_INTERVAL : Nat
  READ_INTERVAL : Nat
  REGISTER_RANGES : List RegisterRange
  TOTAL_REGISTERS : Nat

/-- The `CONFIG` constant of `server.js`. -/
def CONFIG : Config where
  MODBUS_HOST := "127.0.0.1"
  MODBUS_PORT := 502
  MODBUS_ID := 1
  SERVER_PORT := 3001
  MAX_RETRIES := 15
  RETRY_INTERVAL := 15000
  READ_INTERVAL := 2000
  REGISTER_RANGES := [{ start := 0, length := 70, name := "Batch 1A" }]
  TOTAL_REGISTERS := 70

/-- The console messages of `server.js`. -/
inductive LogMsg where
  | modbusConnected
  | connectionError
  | retrying (retryCount maxRetries : Nat)
  | maxRetriesReached
  | readError (name : String)
  | startingMonitoring
  | processingError
  | clientConnected (socket : Nat)
  | shutdownInitiated
  | modbusClosed
  | errorClosingModbus
  deriving DecidableEq

/-- The calls `server.js` makes on the outside world.  `connectModbusInvoked`
is a marker recorded on entry to `connectModbus`; every other constructor is a
call of the source. -/
inductive Event where
  | log (m : LogMsg)
  | connectModbusInvoked
  | clearInterval (handle : Option Nat)
  | clientClose
  | connectTCP (host : String) (port : Nat)
  | setID (id : Nat)
  | setTimeout (ms : Nat)
  | setInterval (handle : Nat) (ms : Nat)
  | scheduleRetry (ms : Nat)
  | readHoldingRegisters (start length : Nat)
  | ioEmit (payload : List JSValue)
  | socketEmit (socket : Nat) (payload : List JSValue)
  | ioClose
  | serverClose
  | forceExitTimer (ms : Nat)
  deriving DecidableEq

/-- The mutable state of the server: the three module-level variables, the
`isOpen` flag of the Modbus client, the number of `setTimeout(connectModbus)`
callbacks that have not fired yet, the next fresh timer handle, and the trace
of calls made so far. -/
structure State where
  dataBuffer : List JSValue
  modbusLoopInterval : Option Nat
  retryCount : Nat
  isOpen : Bool
  pendingRetries : Nat
  nextTimer : Nat
  trace : List Event

/-- The state after the module-level `let` declarations have run:
`new Array(CONFIG.TOTAL_REGISTERS).fill(0)`, `null`, `0`. -/
def init (cfg : Config) : State where
  dataBuffer := List.replicate cfg.TOTAL_REGISTERS (.num 0)
  modbusLoopInterval := none
  retryCount := 0
  isOpen := false
  pendingRetries := 0
  nextTimer := 0
  trace := []

/-- What the Modbus client answers during one `connectModbus`: whether
`client.close()` throws and whether `client.connectTCP` succeeds. -/
structure ConnectEnv where
  closeThrows : Bool
  connectOk : Bool
  deriving DecidableEq

/-- What one `client.readHoldingRegisters` call answers: a response whose
`data` array is `d` (of any length), or a thrown error; `fatal` tells whether
the error is a transport-level one that leaves the link dead. -/
inductive ReadOutcome where
  | data (d : List Int)
  | error (fatal : Bool)
  deriving DecidableEq

/-- What the outside world answers during one poll tick: the outcome of the
read of the range at each position of `REGISTER_RANGES`, and the answers to a
`connectModbus` the tick may make. -/
structure TickEnv where
  reads : Nat → ReadOutcome
  conn : ConnectEnv

/-! ## Operations -/

/-- JavaScript `a[i] = v` on an array: an index inside the array replaces the
slot, an index past the end grows the array, leaving holes in between. -/
def jsSet (a : List JSValue) (i : Nat) (v : JSValue) : List JSValue :=
  if i < a.length then a.set i v
  else a ++ List.replicate (i - a.length) JSValue.undefined ++ [v]

/-- The inner loop of `processBatchesSequential`,
`for (i = 0; i < batchData.length; i++) newBuffer[range.start + i] = batchData[i]`,
with `pos = range.start + i` and the list the elements not yet written. -/
def writeBatch : List JSValue → Nat → List Int → List JSValue
  | buf, _, [] => buf
  | buf, pos, d :: ds => writeBatch (jsSet buf pos (.num d)) (pos + 1) ds

/-- Function `startModbusLoop`: logs and installs the polling interval. -/
def startModbusLoop (cfg : Config) (s : State) : State :=
  { s with
    modbusLoopInterval := some s.nextTimer
    nextTimer := s.nextTimer + 1
    trace := s.trace ++ [Event.log LogMsg.startingMonitoring, Event.setInterval s.nextTimer cfg.READ_INTERVAL] }

/-- Function `handleConnectionError`: `retryCount++ < CONFIG.MAX_RETRIES`
compares the value before the increment. -/
def handleConnectionError (cfg : Config) (s : State) : State :=
  let old := s.retryCount
  let s1 := { s with retryCount := old + 1, trace := s.trace ++ [Event.log LogMsg.connectionError] }
  if old < cfg.MAX_RETRIES then
    { s1 with
      pendingRetries := s1.pendingRetries + 1
      trace := s1.trace ++
        [Event.log (LogMsg.retrying s1.retryCount cfg.MAX_RETRIES), Event.scheduleRetry cfg.RETRY_INTERVAL] }
  else
    { s1 with trace := s1.trace ++ [Event.log LogMsg.maxRetriesReached] }

/-- Function `connectModbus`.  A `client.close()` that throws leaves `isOpen`
as it was and goes to the `catch`; a failed `connectTCP` leaves the client
closed. -/
def connectModbus (cfg : Config) (env : ConnectEnv) (s : State) : State :=
  let s1 := { s with
    modbusLoopInterval := none
    trace := s.trace ++ [Event.connectModbusInvoked, Event.clearInterval s.modbusLoopInterval] }
  if s1.isOpen && env.closeThrows then
    handleConnectionError cfg { s1 with trace := s1.trace ++ [Event.clientClose] }
  else
    let s2 := if s1.isOpen then
        { s1 with isOpen := false, trace := s1.trace ++ [Event.clientClose] }
      else s1
    let s3 := { s2 with trace := s2.trace ++ [Event.connectTCP cfg.MODBUS_HOST cfg.MODBUS_PORT] }
    if env.connectOk then
      startModbusLoop cfg { s3 with
        isOpen := true
        retryCount := 0
        trace := s3.trace ++ [Event.setID cfg.MODBUS_ID, Event.setTimeout 5000, Event.log LogMsg.modbusConnected] }
    else
      handleConnectionError cfg s3

/-- The `for (const range of CONFIG.REGISTER_RANGES)` loop of
`processBatchesSequential`.  `idx` is the position of the head range in the
configured list; the pair is `newBuffer` and the rest of the state.  A thrown
read is caught inside the loop body, whatever the error; the source does not
look at the error, and the only trace a transport-level one leaves is that
`client.isOpen` is false afterwards. -/
def readRanges (reads : Nat → ReadOutcome) :
    Nat → List RegisterRange → List JSValue × State → List JSValue × State
  | _, [], acc => acc
  | idx, r :: rest, (newBuffer, s) =>
    let s1 := { s with trace := s.trace ++ [Event.readHoldingRegisters r.start r.length] }
    match reads idx with
    | .data d => readRanges reads (idx + 1) rest (writeBatch newBuffer r.start d, s1)
    | .error fatal =>
      readRanges reads (idx + 1) rest
        (newBuffer, { s1 with
          isOpen := s1.isOpen && !fatal
          trace := s1.trace ++ [Event.log (LogMsg.readError r.name)] })

/-- Function `processBatchesSequential`: copy `dataBuffer`, run the loop,
replace `dataBuffer` and broadcast it.  The result is `Except` because the
caller wraps the call in `try`/`catch`; no statement outside the loop's own
`try` throws. -/
def processBatchesSequential (cfg : Config) (reads : Nat → ReadOutcome) (s : State) :
    Except String State :=
  let out := readRanges reads 0 cfg.REGISTER_RANGES (s.dataBuffer, s)
  .ok { out.2 with dataBuffer := out.1, trace := out.2.trace ++ [Event.ioEmit out.1] }

/-- The callback `startModbusLoop` hands to `setInterval`: one poll tick. -/
def pollTick (cfg : Config) (env : TickEnv) (s : State) : State :=
  if !s.isOpen then
    connectModbus cfg env.conn s
  else
    match processBatchesSequential cfg env.reads s with
    | .ok s1 => s1
    | .error _ =>
      connectModbus cfg env.conn { s with trace := s.trace ++ [Event.log LogMsg.processingError] }

/-- The `io.on('connection', ...)` handler for the observer `socket`. -/
def onConnection (socket : Nat) (s : State) : State :=
  { s with trace := s.trace ++ [Event.log (LogMsg.clientConnected socket), Event.socketEmit socket s.dataBuffer] }

/-- Function `shutdown`, up to its last statement; `closeThrows` tells whether
`client.close()` throws. -/
def shutdown (closeThrows : Bool) (s : State) : State :=
  let s1 := { s with
    trace := s.trace ++ [Event.log LogMsg.shutdownInitiated, Event.clearInterval s.modbusLoopInterval, Event.ioClose] }
  let s2 :=
    if s1.isOpen then
      if closeThrows then
        { s1 with trace := s1.trace ++ [Event.clientClose, Event.log LogMsg.errorClosingModbus] }
      else
        { s1 with isOpen := false, trace := s1.trace ++ [Event.clientClose, Event.log LogMsg.modbusClosed] }
    else s1
  { s2 with trace := s2.trace ++ [Event.serverClose, Event.forceExitTimer 3000] }

/-! ## Runs -/

/-- The retry chain when every connect attempt fails: `connectModbus` runs,
and while it has left a scheduled retry, the timer fires and `connectModbus`
runs again.  `none` means the fuel ran out with a retry still scheduled. -/
def retryChain (cfg : Config) : Nat → State → Option State
  | 0, _ => none
  | fuel + 1, s =>
    let s1 := connectModbus cfg { closeThrows := false, connectOk := false } s
    if 0 < s1.pendingRetries then
      retryChain cfg fuel { s1 with pendingRetries := s1.pendingRetries - 1 }
    else some s1

/-- The value of `retryCount` after each of a sequence of `connectModbus`
calls whose connect attempts have the given outcomes (`true` is success) and
whose closes do not throw. -/
def retryCounts (cfg : Config) : State → List Bool → List Nat
  | _, [] => []
  | s, ok :: rest =>
    let s1 := connectModbus cfg { closeThrows := false, connectOk := ok } s
    s1.retryCount :: retryCounts cfg s1 rest

/-- Something that happens to the running server. -/
inductive Step where
  | startup (env : ConnectEnv)
  | retryFires (env : ConnectEnv)
  | tick (env : TickEnv)
  | connection (socket : Nat)

/-- One step of the server: the `server.listen` callback, a scheduled retry
firing, a poll tick, or an observer connecting. -/
def step (cfg : Config) (s : State) : Step → State
  | .startup env => connectModbus cfg env s
  | .retryFires env =>
    if 0 < s.pendingRetries then
      connectModbus cfg env { s with pendingRetries := s.pendingRetries - 1 }
    else s
  | .tick env => pollTick cfg env s
  | .connection socket => onConnection socket s

/-- The state after a sequence of steps. -/
def run (cfg : Config) (s : State) (steps : List Step) : State :=
  steps.foldl (step cfg) s

/-! ## Observations on a trace -/

/-- Number of `client.connectTCP` calls in a trace. -/
def connectAttempts (t : List Event) : Nat :=
  (t.filter fun e => match e with | Event.connectTCP _ _ => true | _ => false).length

/-- Number of `setTimeout(connectModbus, ...)` calls in a trace. -/
def retriesScheduled (t : List Event) : Nat :=
  (t.filter fun e => match e with | Event.scheduleRetry _ => true | _ => false).length

/-- Number of entries into `connectModbus` in a trace. -/
def connectInvocations (t : List Event) : Nat :=
  t.count Event.connectModbusInvoked

/-- Number of `client.close()` calls in a trace. -/
def sessionCloses (t : List Event) : Nat :=
  t.count Event.clientClose

/-- The `(start, length)` of the `readHoldingRegisters` calls in a trace, in order. -/
def readCalls (t : List Event) : List (Nat × Nat) :=
  t.filterMap fun e => match e with | Event.readHoldingRegisters a n => some (a, n) | _ => none

/-- The payloads of every `'modbusData'` message in a trace, broadcast or
addressed to one socket, in order. -/
def payloads (t : List Event) : List (List JSValue) :=
  t.filterMap fun e =>
    match e with
    | Event.ioEmit p => some p
    | Event.socketEmit _ p => some p
    | _ => none

/-- The payloads broadcast with `io.emit` in a trace, in order. -/
def broadcasts (t : List Event) : List (List JSValue) :=
  t.filterMap fun e => match e with | Event.ioEmit p => some p | _ => none

/-- The `'modbusData'` payloads of a trace that go to the observer `o`: those
emitted on its own socket and those broadcast. -/
def deliveredTo (o : Nat) (t : List Event) : List (List JSValue) :=
  t.filterMap fun e =>
    match e with
    | Event.ioEmit p => some p
    | Event.socketEmit o1 p => if o1 = o then some p else none
    | _ => none

/-- The payloads emitted on the socket of observer `o` alone. -/
def sentOnSocket (o : Nat) (t : List Event) : List (List JSValue) :=
  t.filterMap fun e =>
    match e with
    | Event.socketEmit o1 p => if o1 = o then some p else none
    | _ => none

/-- The registers of `buf` at the indices `[r.start, r.start + r.length)`. -/
def slice (buf : List JSValue) (r : RegisterRange) : List JSValue :=
  (buf.drop r.start).take r.length

/-- Two ranges share no index. -/
def disjoint (a b : RegisterRange) : Prop :=
  a.start + a.length ≤ b.start ∨ b.start + b.length ≤ a.start

instance (a b : RegisterRange) : Decidable (disjoint a b) := by
  unfold disjoint; infer_instance

/-- A range is, after a tick, either entirely the data its
read returned or entirely what it was before. -/
def rangeAtomic (before after : List JSValue) (r : RegisterRange) (o : ReadOutcome) : Prop :=
  slice after r = slice before r ∨
    match o with
    | .data d => slice after r = d.map JSValue.num
    | .error _ => False

instance (before after : List JSValue) (r : RegisterRange) (o : ReadOutcome) :
    Decidable (rangeAtomic before after r o) := by
  unfold rangeAtomic; cases o <;> infer_instance

/-- The buffer `processBatchesSequential` leaves in `dataBuffer`. -/
def bufferAfter (cfg : Config) (reads : Nat → ReadOutcome) (s : State) : List JSValue :=
  match processBatchesSequential cfg reads s with
  | .ok s1 => s1.dataBuffer
  | .error _ => s.dataBuffer

/-- The trace `processBatchesSequential` leaves. -/
def traceAfter (cfg : Config) (reads : Nat → ReadOutcome) (s : State) : List Event :=
  match processBatchesSequential cfg reads s with
  | .ok s1 => s1.trace
  | .error _ => s.trace

/-- The calls the loop of `processBatchesSequential` makes, from the range at
position `idx` on: one `readHoldingRegisters` per range, followed by the
console message of its `catch` when the read threw. -/
def readEvents (reads : Nat → ReadOutcome) : Nat → List RegisterRange → List Event
  | _, [] => []
  | idx, r :: rest =>
    (Event.readHoldingRegisters r.start r.length ::
      (match reads idx with
        | .data _ => []
        | .error _ => [Event.log (LogMsg.readError r.name)])) ++
      readEvents reads (idx + 1) rest

/-- Two ranges `[0, 2)` and `[2, 4)` over four registers. -/
def twoRanges : Config :=
  { CONFIG with
    REGISTER_RANGES := [{ start := 0, length := 2, name := "A" }, { start := 2, length := 2, name := "B" }]
    TOTAL_REGISTERS := 4 }

/-- A link that connects at once and closes without throwing. -/
def linkUp : ConnectEnv := { closeThrows := false, connectOk := true }

/-- A link whose connect attempts fail. -/
def linkDown : ConnectEnv := { closeThrows := false, connectOk := false }

/-- The state once the `server.listen` callback has connected. -/
def connected (cfg : Config) : State := run cfg (init cfg) [Step.startup linkUp]

/-- Reads in which the range at position `0` answers `o` and every other read throws a
per-range error. -/
def firstAnswers (o : ReadOutcome) : Nat → ReadOutcome :=
  fun k => if k = 0 then o else ReadOutcome.error false

/-- A tick in which the read of the first range throws a transport-level
error and every later read returns `[8, 9]`. -/
def fatalFirst : TickEnv :=
  { reads := fun k => if k = 0 then ReadOutcome.error true else ReadOutcome.data [8, 9]
    conn := linkUp }

/-- A tick in which every read returns the given data. -/
def allAnswer (d : List Int) : TickEnv :=
  { reads := fun _ => ReadOutcome.data d, conn := linkUp }

/-- Both events occur in the trace and the first occurrence of `a` comes
before the first occurrence of `b`. -/
def occursBefore (a b : Event) (t : List Event) : Prop :=
  a ∈ t ∧ b ∈ t ∧ t.indexOf a < t.indexOf b

instance (a b : Event) (t : List Event) : Decidable (occursBefore a b t) := by
  unfold occursBefore; infer_instance

/-! ## Array writes -/

theorem jsSet_length_le (a : List JSValue) (i : Nat) (v : JSValue) :
    a.length ≤ (jsSet a i v).length := by
  unfold jsSet
  split
  · simp
  · simp only [List.length_append, List.length_replicate, List.length_singleton]
    omega

theorem jsSet_length_of_lt (a : List JSValue) (i : Nat) (v : JSValue) (h : i < a.length) :
    (jsSet a i v).length = a.length := by
  simp [jsSet, h]

theorem jsSet_length_of_ge (a : List JSValue) (i : Nat) (v : JSValue) (h : a.length ≤ i) :
    (jsSet a i v).length = i + 1 := by
  have h1 : ¬ i < a.length := by omega
  simp only [jsSet, h1, if_false, List.length_append, List.length_replicate,
    List.length_singleton]
  omega

theorem jsSet_getElem?_self (a : List JSValue) (i : Nat) (v : JSValue) :
    (jsSet a i v)[i]? = some v := by
  unfold jsSet
  split
  · next h => simp [List.getElem?_set, h]
  · next h =>
    have h1 : (a ++ List.replicate (i - a.length) JSValue.undefined).length = i := by
      simp only [List.length_append, List.length_replicate]
      omega
    rw [List.getElem?_append_right (by omega)]
    simp [h1]

theorem jsSet_getElem?_ne (a : List JSValue) (i j : Nat) (v : JSValue)
    (hj : j < a.length) (hne : j ≠ i) : (jsSet a i v)[j]? = a[j]? := by
  unfold jsSet
  split
  · exact List.getElem?_set_ne (Ne.symm hne)
  · rw [List.append_assoc, List.getElem?_append_left hj]

theorem writeBatch_length_le (ds : List Int) : ∀ (buf : List JSValue) (pos : Nat),
    buf.length ≤ (writeBatch buf pos ds).length := by
  induction ds with
  | nil => intro buf pos; simp [writeBatch]
  | cons d ds ih =>
    intro buf pos
    simp only [writeBatch]
    exact Nat.le_trans (jsSet_length_le buf pos _) (ih _ _)

theorem writeBatch_length_of_le (ds : List Int) : ∀ (buf : List JSValue) (pos : Nat),
    pos + ds.length ≤ buf.length → (writeBatch buf pos ds).length = buf.length := by
  induction ds with
  | nil => intro buf pos _; simp [writeBatch]
  | cons d ds ih =>
    intro buf pos h
    simp only [List.length_cons] at h
    simp only [writeBatch]
    have h1 : (jsSet buf pos (JSValue.num d)).length = buf.length :=
      jsSet_length_of_lt buf pos _ (by omega)
    rw [ih _ _ (by omega), h1]

/-- A write of a batch leaves every existing slot outside the written span
as it was. -/
theorem writeBatch_getElem?_outside (ds : List Int) : ∀ (buf : List JSValue) (pos j : Nat),
    j < buf.length → ¬ (pos ≤ j ∧ j < pos + ds.length) →
    (writeBatch buf pos ds)[j]? = buf[j]? := by
  induction ds with
  | nil => intro buf pos j _ _; simp [writeBatch]
  | cons d ds ih =>
    intro buf pos j hj hout
    simp only [List.length_cons] at hout
    simp only [writeBatch]
    have hlen := jsSet_length_le buf pos (JSValue.num d)
    rw [ih _ _ j (by omega) (by omega)]
    exact jsSet_getElem?_ne buf pos j _ hj (by omega)

/-- A write of a batch puts element `i` of the data at `pos + i`. -/
theorem writeBatch_getElem?_inside (ds : List Int) : ∀ (buf : List JSValue) (pos i : Nat),
    i < ds.length → (writeBatch buf pos ds)[pos + i]? = (ds.map JSValue.num)[i]? := by
  induction ds with
  | nil => intro buf pos i h; simp at h
  | cons d ds ih =>
    intro buf pos i hi
    simp only [writeBatch]
    cases i with
    | zero =>
      have hlt : pos < (jsSet buf pos (JSValue.num d)).length := by
        by_cases h : pos < buf.length
        · rw [jsSet_length_of_lt _ _ _ h]; exact h
        · rw [jsSet_length_of_ge _ _ _ (by omega)]; omega
      have h1 := writeBatch_getElem?_outside ds _ (pos + 1) pos hlt (by omega)
      simp only [Nat.add_zero]
      rw [h1]
      simp [jsSet_getElem?_self]
    | succ i =>
      simp only [List.length_cons] at hi
      have := ih (jsSet buf pos (JSValue.num d)) (pos + 1) i (by omega)
      rw [show pos + (i + 1) = pos + 1 + i by omega, this]
      simp

theorem slice_getElem? (buf : List JSValue) (r : RegisterRange) (i : Nat) :
    (slice buf r)[i]? = if i < r.length then buf[r.start + i]? else none := by
  simp [slice, List.getElem?_take]

theorem slice_congr (a b : List JSValue) (r : RegisterRange)
    (h : ∀ j, r.start ≤ j → j < r.start + r.length → a[j]? = b[j]?) :
    slice a r = slice b r := by
  apply List.ext_getElem?
  intro i
  rw [slice_getElem?, slice_getElem?]
  split
  · exact h _ (by omega) (by omega)
  · rfl

/-! ## The loop over the configured ranges -/

theorem readRanges_trace (reads : Nat → ReadOutcome) (ranges : List RegisterRange) :
    ∀ (idx : Nat) (buf : List JSValue) (s : State),
      (readRanges reads idx ranges (buf, s)).2.trace = s.trace ++ readEvents reads idx ranges := by
  induction ranges with
  | nil => intro idx buf s; simp [readRanges, readEvents]
  | cons r rest ih =>
    intro idx buf s
    simp only [readRanges, readEvents]
    cases hr : reads idx with
    | data d => simp [ih]
    | error fatal => simp [ih]

theorem readRanges_fst_length_le (reads : Nat → ReadOutcome) (ranges : List RegisterRange) :
    ∀ (idx : Nat) (buf : List JSValue) (s : State),
      buf.length ≤ (readRanges reads idx ranges (buf, s)).1.length := by
  induction ranges with
  | nil => intro idx buf s; simp [readRanges]
  | cons r rest ih =>
    intro idx buf s
    simp only [readRanges]
    cases hr : reads idx with
    | data d =>
      exact Nat.le_trans (writeBatch_length_le d buf r.start) (ih _ _ _)
    | error fatal => exact ih _ _ _

/-- When no returned data array reaches past the end of the buffer, the loop
keeps the length of the buffer. -/
theorem readRanges_fst_length (reads : Nat → ReadOutcome) (ranges : List RegisterRange) :
    ∀ (idx : Nat) (buf : List JSValue) (s : State),
      (∀ k r d, ranges[k]? = some r → reads (idx + k) = ReadOutcome.data d →
        r.start + d.length ≤ buf.length) →
      (readRanges reads idx ranges (buf, s)).1.length = buf.length := by
  induction ranges with
  | nil => intro idx buf s _; simp [readRanges]
  | cons r rest ih =>
    intro idx buf s h
    simp only [readRanges]
    have hrest : ∀ (b : List JSValue), b.length = buf.length →
        ∀ k r1 d, rest[k]? = some r1 → reads (idx + 1 + k) = ReadOutcome.data d →
          r1.start + d.length ≤ b.length := by
      intro b hb k r1 d hk hd
      rw [hb]
      exact h (k + 1) r1 d (by simpa using hk) (by rw [← hd]; congr 1; omega)
    cases hr : reads idx with
    | data d =>
      have h0 := h 0 r d (by simp) (by simpa using hr)
      have hw := writeBatch_length_of_le d buf r.start h0
      show (readRanges reads (idx + 1) rest (writeBatch buf r.start d, _)).1.length = buf.length
      rw [ih _ _ _ (hrest _ hw), hw]
    | error fatal =>
      exact ih _ _ _ (hrest _ rfl)

/-- The loop leaves an existing slot as it was when the slot lies outside the
span written by every read that returned data. -/
theorem readRanges_fst_outside (reads : Nat → ReadOutcome) (ranges : List RegisterRange)
    (j : Nat) :
    ∀ (idx : Nat) (buf : List JSValue) (s : State),
      j < buf.length →
      (∀ k r d, ranges[k]? = some r → reads (idx + k) = ReadOutcome.data d →
        ¬ (r.start ≤ j ∧ j < r.start + d.length)) →
      (readRanges reads idx ranges (buf, s)).1[j]? = buf[j]? := by
  induction ranges with
  | nil => intro idx buf s _ _; simp [readRanges]
  | cons r rest ih =>
    intro idx buf s hj h
    simp only [readRanges]
    have hrest : ∀ k r1 d, rest[k]? = some r1 → reads (idx + 1 + k) = ReadOutcome.data d →
          ¬ (r1.start ≤ j ∧ j < r1.start + d.length) := by
      intro k r1 d hk hd
      exact h (k + 1) r1 d (by simpa using hk) (by rw [← hd]; congr 1; omega)
    cases hr : reads idx with
    | data d =>
      have h0 := h 0 r d (by simp) (by simpa using hr)
      have hw := writeBatch_length_le d buf r.start
      show (readRanges reads (idx + 1) rest (writeBatch buf r.start d, _)).1[j]? = buf[j]?
      rw [ih _ _ _ (by omega) hrest]
      exact writeBatch_getElem?_outside d buf r.start j hj h0
    | error fatal =>
      exact ih _ _ _ hj hrest

/-- The loop leaves element `i` of the data returned for the range at
position `k` in slot `start + i`, when no other read that returned data
writes that slot. -/
theorem readRanges_fst_inside (reads : Nat → ReadOutcome) (ranges : List RegisterRange)
    (j : Nat) (v : Option JSValue) :
    ∀ (k idx : Nat) (buf : List JSValue) (s : State) (r : RegisterRange) (d : List Int),
      ranges[k]? = some r → reads (idx + k) = ReadOutcome.data d →
      r.start ≤ j → j < r.start + d.length → j < buf.length →
      (d.map JSValue.num)[j - r.start]? = v →
      (∀ k1 r1 d1, k1 ≠ k → ranges[k1]? = some r1 → reads (idx + k1) = ReadOutcome.data d1 →
        ¬ (r1.start ≤ j ∧ j < r1.start + d1.length)) →
      (readRanges reads idx ranges (buf, s)).1[j]? = v := by
  induction ranges with
  | nil => intro k idx buf s r d hk; simp at hk
  | cons r0 rest ih =>
    intro k idx buf s r d hk hd hlo hhi hj hv hother
    simp only [readRanges]
    cases k with
    | zero =>
      simp only [List.getElem?_cons_zero, Option.some.injEq] at hk
      subst hk
      simp only [Nat.add_zero] at hd
      rw [hd]
      have hw := writeBatch_length_le d buf r0.start
      show (readRanges reads (idx + 1) rest (writeBatch buf r0.start d, _)).1[j]? = v
      rw [readRanges_fst_outside reads rest j _ _ _ (by omega)]
      · have := writeBatch_getElem?_inside d buf r0.start (j - r0.start) (by omega)
        rw [show r0.start + (j - r0.start) = j by omega] at this
        rw [this, hv]
      · intro k1 r1 d1 hk1 hd1
        exact hother (k1 + 1) r1 d1 (by omega) (by simpa using hk1)
          (by rw [← hd1]; congr 1; omega)
    | succ k =>
      have hk1 : rest[k]? = some r := by simpa using hk
      have hd1 : reads (idx + 1 + k) = ReadOutcome.data d := by
        rw [← hd]; congr 1; omega
      have hrest : ∀ k1 r1 d1, k1 ≠ k → rest[k1]? = some r1 →
          reads (idx + 1 + k1) = ReadOutcome.data d1 →
          ¬ (r1.start ≤ j ∧ j < r1.start + d1.length) := by
        intro k1 r1 d1 hne hk2 hd2
        exact hother (k1 + 1) r1 d1 (by omega) (by simpa using hk2)
          (by rw [← hd2]; congr 1; omega)
      cases hr : reads idx with
      | data d0 =>
        have h0 := hother 0 r0 d0 (by omega) (by simp) (by simpa using hr)
        have hw := writeBatch_length_le d0 buf r0.start
        show (readRanges reads (idx + 1) rest (writeBatch buf r0.start d0, _)).1[j]? = v
        exact ih k (idx + 1) _ _ r d hk1 hd1 hlo hhi (by omega) hv hrest
      | error fatal =>
        exact ih k (idx + 1) _ _ r d hk1 hd1 hlo hhi hj hv hrest

theorem disjoint_of_pairwise (ranges : List RegisterRange) (h : ranges.Pairwise disjoint)
    (k1 k2 : Nat) (r1 r2 : RegisterRange) (hne : k1 ≠ k2)
    (h1 : ranges[k1]? = some r1) (h2 : ranges[k2]? = some r2) : disjoint r1 r2 := by
  rw [List.pairwise_iff_getElem] at h
  obtain ⟨hk1, rfl⟩ := List.getElem?_eq_some_iff.mp h1
  obtain ⟨hk2, rfl⟩ := List.getElem?_eq_some_iff.mp h2
  rcases Nat.lt_or_gt_of_ne hne with hlt | hgt
  · exact h k1 k2 hk1 hk2 hlt
  · have := h k2 k1 hk2 hk1 hgt
    unfold disjoint at this ⊢
    omega

theorem bufferAfter_eq (cfg : Config) (reads : Nat → ReadOutcome) (s : State) :
    bufferAfter cfg reads s =
      (readRanges reads 0 cfg.REGISTER_RANGES (s.dataBuffer, s)).1 := rfl

theorem traceAfter_eq (cfg : Config) (reads : Nat → ReadOutcome) (s : State) :
    traceAfter cfg reads s =
      s.trace ++ readEvents reads 0 cfg.REGISTER_RANGES ++ [Event.ioEmit (bufferAfter cfg reads s)] := by
  simp [traceAfter, bufferAfter, processBatchesSequential, readRanges_trace]

theorem readCalls_readEvents (reads : Nat → ReadOutcome) (ranges : List RegisterRange) :
    ∀ idx, readCalls (readEvents reads idx ranges) = ranges.map fun r => (r.start, r.length) := by
  induction ranges with
  | nil => intro idx; simp [readEvents, readCalls]
  | cons r rest ih =>
    intro idx
    have := ih (idx + 1)
    unfold readCalls at this ⊢
    simp only [readEvents]
    cases reads idx <;> simp [List.filterMap_cons, List.filterMap_append, this]

/-- A range whose read threw keeps its values, when the other ranges are
disjoint from it and no response is longer than requested. -/
theorem bufferAfter_failed_range (cfg : Config) (reads : Nat → ReadOutcome) (s : State)
    (hdisj : cfg.REGISTER_RANGES.Pairwise disjoint)
    (hlen : ∀ k r d, cfg.REGISTER_RANGES[k]? = some r → reads k = ReadOutcome.data d →
      d.length ≤ r.length)
    (k : Nat) (r : RegisterRange) (f : Bool) (hk : cfg.REGISTER_RANGES[k]? = some r)
    (hin : r.start + r.length ≤ s.dataBuffer.length)
    (hr : reads k = ReadOutcome.error f) :
    slice (bufferAfter cfg reads s) r = slice s.dataBuffer r := by
  apply slice_congr
  intro j hlo hhi
  rw [bufferAfter_eq]
  apply readRanges_fst_outside reads _ j 0 _ _ (by omega)
  intro k1 r1 d1 hk1 hd1
  rw [Nat.zero_add] at hd1
  have hne : k1 ≠ k := by
    intro h; subst h; rw [hr] at hd1; cases hd1
  have hd := disjoint_of_pairwise _ hdisj k1 k r1 r hne hk1 hk
  have hl := hlen k1 r1 d1 hk1 hd1
  unfold disjoint at hd
  omega

/-- A range whose read returned data of the requested length holds that
data, when the other ranges are disjoint from it and no response is longer
than requested. -/
theorem bufferAfter_read_range (cfg : Config) (reads : Nat → ReadOutcome) (s : State)
    (hdisj : cfg.REGISTER_RANGES.Pairwise disjoint)
    (hlen : ∀ k r d, cfg.REGISTER_RANGES[k]? = some r → reads k = ReadOutcome.data d →
      d.length ≤ r.length)
    (k : Nat) (r : RegisterRange) (d : List Int) (hk : cfg.REGISTER_RANGES[k]? = some r)
    (hin : r.start + r.length ≤ s.dataBuffer.length)
    (hr : reads k = ReadOutcome.data d) (hd : d.length = r.length) :
    slice (bufferAfter cfg reads s) r = d.map JSValue.num := by
  apply List.ext_getElem?
  intro i
  rw [slice_getElem?]
  split
  · next hi =>
    rw [bufferAfter_eq]
    apply readRanges_fst_inside reads _ (r.start + i) _ k 0 _ _ r d hk
      (by rw [Nat.zero_add]; exact hr) (by omega) (by omega) (by omega)
    · rw [show r.start + i - r.start = i by omega]
    · intro k1 r1 d1 hne hk1 hd1
      rw [Nat.zero_add] at hd1
      have hdj := disjoint_of_pairwise _ hdisj k1 k r1 r hne hk1 hk
      have hl := hlen k1 r1 d1 hk1 hd1
      unfold disjoint at hdj
      omega
  · next hi =>
    symm
    apply List.getElem?_eq_none
    simp only [List.length_map]
    omega

/-! ## Range atomicity of a tick (C3) -/

/-- C3 as stated fails.  With the configured range `[0, 70)` and a response
whose data array has one element, the range ends as a mixture of the new
element and its prior values.  With two ranges `[0, 2)` and `[2, 4)`, a
three-element response for the first and a thrown read for the second, the
second range ends as a mixture of the first range's data and its prior
values. -/
theorem c3_range_atomic_counterexample :
    ¬ (∀ k r, CONFIG.REGISTER_RANGES[k]? = some r →
        rangeAtomic (connected CONFIG).dataBuffer
          (bufferAfter CONFIG (firstAnswers (ReadOutcome.data [1])) (connected CONFIG))
          r (firstAnswers (ReadOutcome.data [1]) k)) ∧
    ¬ (∀ k r, twoRanges.REGISTER_RANGES[k]? = some r →
        rangeAtomic (connected twoRanges).dataBuffer
          (bufferAfter twoRanges (firstAnswers (ReadOutcome.data [1, 2, 3])) (connected twoRanges))
          r (firstAnswers (ReadOutcome.data [1, 2, 3]) k)) := by
  constructor
  · intro h
    exact absurd (h 0 _ rfl) (by decide)
  · intro h
    exact absurd (h 1 _ rfl) (by decide)

/-- C3, amended: for pairwise disjoint in-bounds ranges and reads that either
throw or return exactly as many registers as requested, after
`processBatchesSequential` each configured range of `dataBuffer` is entirely
the data returned for it when its read returned, and entirely its prior
values when its read threw. -/
theorem processBatchesSequential_range_atomic (cfg : Config) (reads : Nat → ReadOutcome)
    (s : State)
    (hdisj : cfg.REGISTER_RANGES.Pairwise disjoint)
    (hin : ∀ r ∈ cfg.REGISTER_RANGES, r.start + r.length ≤ s.dataBuffer.length)
    (hlen : ∀ k r d, cfg.REGISTER_RANGES[k]? = some r → reads k = ReadOutcome.data d →
      d.length = r.length)
    (k : Nat) (r : RegisterRange) (hk : cfg.REGISTER_RANGES[k]? = some r) :
    (∀ d, reads k = ReadOutcome.data d →
      slice (bufferAfter cfg reads s) r = d.map JSValue.num) ∧
    (∀ f, reads k = ReadOutcome.error f →
      slice (bufferAfter cfg reads s) r = slice s.dataBuffer r) ∧
    rangeAtomic s.dataBuffer (bufferAfter cfg reads s) r (reads k) := by
  have hle : ∀ k r d, cfg.REGISTER_RANGES[k]? = some r → reads k = ReadOutcome.data d →
      d.length ≤ r.length := fun k r d h1 h2 => Nat.le_of_eq (hlen k r d h1 h2)
  have hr := hin r (List.getElem?_mem hk)
  have h1 : ∀ d, reads k = ReadOutcome.data d →
      slice (bufferAfter cfg reads s) r = d.map JSValue.num := fun d hd =>
    bufferAfter_read_range cfg reads s hdisj hle k r d hk hr hd (hlen k r d hk hd)
  have h2 : ∀ f, reads k = ReadOutcome.error f →
      slice (bufferAfter cfg reads s) r = slice s.dataBuffer r := fun f hf =>
    bufferAfter_failed_range cfg reads s hdisj hle k r f hk hr hf
  refine ⟨h1, h2, ?_⟩
  unfold rangeAtomic
  cases hcase : reads k with
  | data d => exact Or.inr (h1 d hcase)
  | error f => exact Or.inl (h2 f hcase)

/-- C3, amended, at two ranges: the first read returns `[5, 6]`, the second
throws. -/
theorem processBatchesSequential_range_atomic_witness :
    slice (bufferAfter twoRanges (firstAnswers (ReadOutcome.data [5, 6])) (connected twoRanges))
        { start := 0, length := 2, name := "A" } = [JSValue.num 5, JSValue.num 6] ∧
    slice (bufferAfter twoRanges (firstAnswers (ReadOutcome.data [5, 6])) (connected twoRanges))
        { start := 2, length := 2, name := "B" } = [JSValue.num 0, JSValue.num 0] := by
  have hdisj : twoRanges.REGISTER_RANGES.Pairwise disjoint := by decide
  have hin : ∀ r ∈ twoRanges.REGISTER_RANGES,
      r.start + r.length ≤ (connected twoRanges).dataBuffer.length := by decide
  have hlen : ∀ k r d, twoRanges.REGISTER_RANGES[k]? = some r →
      firstAnswers (ReadOutcome.data [5, 6]) k = ReadOutcome.data d → d.length = r.length := by
    intro k r d hk hd
    match k with
    | 0 =>
      simp only [firstAnswers, if_true, ReadOutcome.data.injEq] at hd
      simp only [twoRanges, List.getElem?_cons_zero, Option.some.injEq] at hk
      subst hk; subst hd; rfl
    | k + 1 => simp [firstAnswers] at hd
  exact ⟨(processBatchesSequential_range_atomic twoRanges _ (connected twoRanges)
      hdisj hin hlen 0 _ rfl).1 _ rfl,
    (processBatchesSequential_range_atomic twoRanges _ (connected twoRanges)
      hdisj hin hlen 1 _ rfl).2.1 false rfl⟩

/-! ## Frame of a tick (C4) -/

/-- C4 as stated fails.  With two ranges `[0, 2)` and `[2, 4)`, a response of
three registers for the first and a thrown read for the second, index `2`
lies outside the only range whose read succeeded, yet it is overwritten: the
failed range does not keep its previous values. -/
theorem c4_frame_counterexample :
    ¬ (∀ j, j < (connected twoRanges).dataBuffer.length →
        (∀ k r d, twoRanges.REGISTER_RANGES[k]? = some r →
          firstAnswers (ReadOutcome.data [1, 2, 3]) k = ReadOutcome.data d →
          ¬ (r.start ≤ j ∧ j < r.start + r.length)) →
        (bufferAfter twoRanges (firstAnswers (ReadOutcome.data [1, 2, 3]))
          (connected twoRanges))[j]? = (connected twoRanges).dataBuffer[j]?) := by
  intro h
  have h2 := h 2 (by decide) (by
    intro k r d hk hd
    match k with
    | 0 =>
      simp only [twoRanges, List.getElem?_cons_zero, Option.some.injEq] at hk
      subst hk
      simp
    | k + 1 => simp [firstAnswers] at hd)
  revert h2
  decide

/-- C4, amended: when no response is longer than the length requested for its
range, every index of `dataBuffer` outside `[start, start+length)` of every
range whose read succeeded holds the same value after
`processBatchesSequential` as before it, and every configured range is read,
in declaration order, whatever reads throw.  In particular, with two disjoint
in-bounds ranges where one read succeeds and the other throws, the failed
range keeps its exact previous values and the data of the other is written
from its start, whichever of the two is declared first. -/
theorem processBatchesSequential_frame (cfg : Config) (reads : Nat → ReadOutcome) (s : State)
    (hlen : ∀ k r d, cfg.REGISTER_RANGES[k]? = some r → reads k = ReadOutcome.data d →
      d.length ≤ r.length) :
    (∀ j, j < s.dataBuffer.length →
      (∀ k r d, cfg.REGISTER_RANGES[k]? = some r → reads k = ReadOutcome.data d →
        ¬ (r.start ≤ j ∧ j < r.start + r.length)) →
      (bufferAfter cfg reads s)[j]? = s.dataBuffer[j]?) ∧
    readCalls (traceAfter cfg reads s) =
      readCalls s.trace ++ cfg.REGISTER_RANGES.map (fun r => (r.start, r.length)) ∧
    (∀ a b, cfg.REGISTER_RANGES = [a, b] → disjoint a b →
      a.start + a.length ≤ s.dataBuffer.length → b.start + b.length ≤ s.dataBuffer.length →
      (∀ d f, reads 0 = ReadOutcome.data d → reads 1 = ReadOutcome.error f →
        slice (bufferAfter cfg reads s) b = slice s.dataBuffer b ∧
        ∀ i, i < d.length →
          (bufferAfter cfg reads s)[a.start + i]? = (d.map JSValue.num)[i]?) ∧
      (∀ d f, reads 0 = ReadOutcome.error f → reads 1 = ReadOutcome.data d →
        slice (bufferAfter cfg reads s) a = slice s.dataBuffer a ∧
        ∀ i, i < d.length →
          (bufferAfter cfg reads s)[b.start + i]? = (d.map JSValue.num)[i]?)) := by
  refine ⟨?_, ?_, ?_⟩
  · intro j hj hout
    rw [bufferAfter_eq]
    apply readRanges_fst_outside reads _ j 0 _ _ hj
    intro k r d hk hd
    rw [Nat.zero_add] at hd
    have h1 := hout k r d hk hd
    have h2 := hlen k r d hk hd
    omega
  · rw [traceAfter_eq]
    unfold readCalls
    rw [List.filterMap_append, List.filterMap_append]
    have := readCalls_readEvents reads cfg.REGISTER_RANGES 0
    unfold readCalls at this
    rw [this]
    simp
  · intro a b hab hdj ha hb
    have hpw : cfg.REGISTER_RANGES.Pairwise disjoint := by
      rw [hab]; simp [hdj]
    have hka : cfg.REGISTER_RANGES[0]? = some a := by rw [hab]; rfl
    have hkb : cfg.REGISTER_RANGES[1]? = some b := by rw [hab]; rfl
    have honly : ∀ k r, cfg.REGISTER_RANGES[k]? = some r → k = 0 ∨ k = 1 := by
      intro k r hk
      rw [hab] at hk
      have := (List.getElem?_eq_some_iff.mp hk).1
      simp only [List.length_cons, List.length_nil] at this
      omega
    constructor
    · intro d f h0 h1
      refine ⟨bufferAfter_failed_range cfg reads s hpw hlen 1 b f hkb hb h1, ?_⟩
      intro i hi
      have hl := hlen 0 a d hka h0
      rw [bufferAfter_eq]
      apply readRanges_fst_inside reads _ (a.start + i) _ 0 0 _ _ a d hka
        (by rw [Nat.zero_add]; exact h0) (by omega) (by omega) (by omega)
      · rw [show a.start + i - a.start = i by omega]
      · intro k1 r1 d1 hne hk1 hd1
        rw [Nat.zero_add] at hd1
        rcases honly k1 r1 hk1 with h | h
        · exact absurd h hne
        · subst h; rw [h1] at hd1; cases hd1
    · intro d f h0 h1
      refine ⟨bufferAfter_failed_range cfg reads s hpw hlen 0 a f hka ha h0, ?_⟩
      intro i hi
      have hl := hlen 1 b d hkb h1
      rw [bufferAfter_eq]
      apply readRanges_fst_inside reads _ (b.start + i) _ 1 0 _ _ b d hkb
        (by rw [Nat.zero_add]; exact h1) (by omega) (by omega) (by omega)
      · rw [show b.start + i - b.start = i by omega]
      · intro k1 r1 d1 hne hk1 hd1
        rw [Nat.zero_add] at hd1
        rcases honly k1 r1 hk1 with h | h
        · subst h; rw [h0] at hd1; cases hd1
        · exact absurd h hne

/-- C4, amended, at two ranges where the first read throws and the second
returns `[8, 9]`: the first range keeps its zeros, the second holds the data,
and both ranges were read. -/
theorem processBatchesSequential_frame_witness :
    (bufferAfter twoRanges
        (fun k => if k = 1 then ReadOutcome.data [8, 9] else ReadOutcome.error false)
        (connected twoRanges))[0]? = some (JSValue.num 0) ∧
    readCalls (traceAfter twoRanges
        (fun k => if k = 1 then ReadOutcome.data [8, 9] else ReadOutcome.error false)
        (connected twoRanges)) = [(0, 2), (2, 2)] := by
  have hlen : ∀ k r d, twoRanges.REGISTER_RANGES[k]? = some r →
      (fun k => if k = 1 then ReadOutcome.data [8, 9] else ReadOutcome.error false) k =
        ReadOutcome.data d → d.length ≤ r.length := by
    intro k r d hk hd
    match k with
    | 0 => simp at hd
    | 1 =>
      simp only [if_true, ReadOutcome.data.injEq] at hd
      simp only [twoRanges, List.getElem?_cons_succ, List.getElem?_cons_zero,
        Option.some.injEq] at hk
      subst hk; subst hd; simp
    | k + 2 => simp at hd
  have h := processBatchesSequential_frame twoRanges _ (connected twoRanges) hlen
  refine ⟨h.1 0 (by decide) ?_, h.2.1⟩
  intro k r d hk hd
  match k with
  | 0 => simp at hd
  | 1 =>
    simp only [twoRanges, List.getElem?_cons_succ, List.getElem?_cons_zero,
      Option.some.injEq] at hk
    subst hk; simp
  | k + 2 => simp at hd

/-! ## Connecting -/

theorem connectModbus_retryCount (cfg : Config) (env : ConnectEnv) (s : State) :
    (connectModbus cfg env s).retryCount =
      if (s.isOpen && env.closeThrows) = true then s.retryCount + 1
      else if env.connectOk = true then 0 else s.retryCount + 1 := by
  unfold connectModbus handleConnectionError startModbusLoop
  cases s.isOpen <;> cases env.closeThrows <;> cases env.connectOk <;>
    by_cases h : s.retryCount < cfg.MAX_RETRIES <;> simp [h]

theorem connectModbus_dataBuffer (cfg : Config) (env : ConnectEnv) (s : State) :
    (connectModbus cfg env s).dataBuffer = s.dataBuffer := by
  unfold connectModbus handleConnectionError startModbusLoop
  cases s.isOpen <;> cases env.closeThrows <;> cases env.connectOk <;>
    by_cases h : s.retryCount < cfg.MAX_RETRIES <;> simp [h]

theorem connectModbus_isOpen (cfg : Config) (env : ConnectEnv) (s : State) :
    (connectModbus cfg env s).isOpen =
      if (s.isOpen && env.closeThrows) = true then true else env.connectOk := by
  unfold connectModbus handleConnectionError startModbusLoop
  cases s.isOpen <;> cases env.closeThrows <;> cases env.connectOk <;>
    by_cases h : s.retryCount < cfg.MAX_RETRIES <;> simp [h]

theorem connectModbus_modbusLoopInterval (cfg : Config) (env : ConnectEnv) (s : State) :
    (connectModbus cfg env s).modbusLoopInterval =
      if (s.isOpen && env.closeThrows) = true then none
      else if env.connectOk = true then some s.nextTimer else none := by
  unfold connectModbus handleConnectionError startModbusLoop
  cases s.isOpen <;> cases env.closeThrows <;> cases env.connectOk <;>
    by_cases h : s.retryCount < cfg.MAX_RETRIES <;> simp [h]

theorem connectModbus_pendingRetries (cfg : Config) (env : ConnectEnv) (s : State) :
    (connectModbus cfg env s).pendingRetries =
      if ((s.isOpen && env.closeThrows) = true ∨ env.connectOk = false) ∧
          s.retryCount < cfg.MAX_RETRIES then s.pendingRetries + 1
      else s.pendingRetries := by
  unfold connectModbus handleConnectionError startModbusLoop
  cases s.isOpen <;> cases env.closeThrows <;> cases env.connectOk <;>
    by_cases h : s.retryCount < cfg.MAX_RETRIES <;> simp [h]

theorem connectModbus_connectAttempts (cfg : Config) (env : ConnectEnv) (s : State) :
    connectAttempts (connectModbus cfg env s).trace =
      connectAttempts s.trace + if (s.isOpen && env.closeThrows) = true then 0 else 1 := by
  unfold connectModbus handleConnectionError startModbusLoop connectAttempts
  cases s.isOpen <;> cases env.closeThrows <;> cases env.connectOk <;>
    by_cases h : s.retryCount < cfg.MAX_RETRIES <;> simp [h, List.filter_append, List.filter_cons]

theorem connectModbus_retriesScheduled (cfg : Config) (env : ConnectEnv) (s : State) :
    retriesScheduled (connectModbus cfg env s).trace =
      retriesScheduled s.trace +
        if ((s.isOpen && env.closeThrows) = true ∨ env.connectOk = false) ∧
          s.retryCount < cfg.MAX_RETRIES then 1 else 0 := by
  unfold connectModbus handleConnectionError startModbusLoop retriesScheduled
  cases s.isOpen <;> cases env.closeThrows <;> cases env.connectOk <;>
    by_cases h : s.retryCount < cfg.MAX_RETRIES <;> simp [h, List.filter_append, List.filter_cons]

theorem connectModbus_sessionCloses (cfg : Config) (env : ConnectEnv) (s : State) :
    sessionCloses (connectModbus cfg env s).trace =
      sessionCloses s.trace + if s.isOpen = true then 1 else 0 := by
  unfold connectModbus handleConnectionError startModbusLoop sessionCloses
  cases s.isOpen <;> cases env.closeThrows <;> cases env.connectOk <;>
    by_cases h : s.retryCount < cfg.MAX_RETRIES <;> simp [h, List.count_append, List.count_cons]

theorem connectModbus_connectInvocations (cfg : Config) (env : ConnectEnv) (s : State) :
    connectInvocations (connectModbus cfg env s).trace = connectInvocations s.trace + 1 := by
  unfold connectModbus handleConnectionError startModbusLoop connectInvocations
  cases s.isOpen <;> cases env.closeThrows <;> cases env.connectOk <;>
    by_cases h : s.retryCount < cfg.MAX_RETRIES <;> simp [h, List.count_append, List.count_cons]

theorem connectModbus_readCalls (cfg : Config) (env : ConnectEnv) (s : State) :
    readCalls (connectModbus cfg env s).trace = readCalls s.trace := by
  unfold connectModbus handleConnectionError startModbusLoop readCalls
  cases s.isOpen <;> cases env.closeThrows <;> cases env.connectOk <;>
    by_cases h : s.retryCount < cfg.MAX_RETRIES <;>
    simp [h, List.filterMap_append, List.filterMap_cons]

theorem connectModbus_payloads (cfg : Config) (env : ConnectEnv) (s : State) :
    payloads (connectModbus cfg env s).trace = payloads s.trace := by
  unfold connectModbus handleConnectionError startModbusLoop payloads
  cases s.isOpen <;> cases env.closeThrows <;> cases env.connectOk <;>
    by_cases h : s.retryCount < cfg.MAX_RETRIES <;>
    simp [h, List.filterMap_append, List.filterMap_cons]

theorem connectModbus_broadcasts (cfg : Config) (env : ConnectEnv) (s : State) :
    broadcasts (connectModbus cfg env s).trace = broadcasts s.trace := by
  unfold connectModbus handleConnectionError startModbusLoop broadcasts
  cases s.isOpen <;> cases env.closeThrows <;> cases env.connectOk <;>
    by_cases h : s.retryCount < cfg.MAX_RETRIES <;>
    simp [h, List.filterMap_append, List.filterMap_cons]

theorem connectModbus_clears_interval (cfg : Config) (env : ConnectEnv) (s : State) :
    Event.clearInterval s.modbusLoopInterval ∈ (connectModbus cfg env s).trace := by
  unfold connectModbus handleConnectionError startModbusLoop
  cases s.isOpen <;> cases env.closeThrows <;> cases env.connectOk <;>
    by_cases h : s.retryCount < cfg.MAX_RETRIES <;> simp [h]

theorem handleConnectionError_retriesScheduled (cfg : Config) (s : State) :
    retriesScheduled (handleConnectionError cfg s).trace =
      retriesScheduled s.trace + if s.retryCount < cfg.MAX_RETRIES then 1 else 0 := by
  unfold handleConnectionError retriesScheduled
  by_cases h : s.retryCount < cfg.MAX_RETRIES <;> simp [h, List.filter_append, List.filter_cons]

/-- The retry chain from a state that has already failed `s.retryCount`
times: it ends, after `MAX_RETRIES + 1 - s.retryCount` further attempts. -/
theorem retryChain_from (cfg : Config) : ∀ (fuel : Nat) (s : State),
    s.pendingRetries = 0 → s.retryCount ≤ cfg.MAX_RETRIES →
    cfg.MAX_RETRIES + 1 - s.retryCount ≤ fuel →
    ∃ s1, retryChain cfg fuel s = some s1 ∧
      connectAttempts s1.trace = connectAttempts s.trace + (cfg.MAX_RETRIES + 1 - s.retryCount) ∧
      retriesScheduled s1.trace = retriesScheduled s.trace + (cfg.MAX_RETRIES - s.retryCount) ∧
      s1.pendingRetries = 0 ∧ s1.retryCount = cfg.MAX_RETRIES + 1 := by
  intro fuel
  induction fuel with
  | zero => intro s _ hr hf; omega
  | succ fuel ih =>
    intro s hp hr hf
    have hrc := connectModbus_retryCount cfg { closeThrows := false, connectOk := false } s
    have hpr := connectModbus_pendingRetries cfg { closeThrows := false, connectOk := false } s
    have hat := connectModbus_connectAttempts cfg { closeThrows := false, connectOk := false } s
    have hrs := connectModbus_retriesScheduled cfg { closeThrows := false, connectOk := false } s
    simp only [Bool.and_false, Bool.false_eq_true, if_false, or_true, true_and] at hrc hpr hat hrs
    simp only [retryChain]
    by_cases h : s.retryCount < cfg.MAX_RETRIES
    · rw [if_pos h] at hpr hrs
      rw [if_pos (by omega)]
      obtain ⟨s1, h1, h2, h3, h4, h5⟩ := ih
        { connectModbus cfg { closeThrows := false, connectOk := false } s with
          pendingRetries :=
            (connectModbus cfg { closeThrows := false, connectOk := false } s).pendingRetries - 1 }
        (by simp only [hpr]; omega) (by simp only [hrc]; omega) (by simp only [hrc]; omega)
      simp only [hrc, hat, hrs] at h2 h3
      exact ⟨s1, h1, by omega, by omega, h4, h5⟩
    · rw [if_neg h] at hpr hrs
      rw [if_neg (by omega)]
      exact ⟨_, rfl, by omega, by omega, by omega, by omega⟩

/-! ## The retry chain (C1) -/

/-- C1 as stated fails.  With `MAX_RETRIES = 15` and `retryCount = 0` at the
start, the chain of failing connects ends after 16 connect attempts, not 15;
and at the 15th consecutive failure (`retryCount` is 14 on entry)
`handleConnectionError` does schedule a further retry. -/
theorem c1_connect_attempts_counterexample :
    (retryChain CONFIG 16 (init CONFIG)).map (fun s => connectAttempts s.trace) =
        some (CONFIG.MAX_RETRIES + 1) ∧
    ¬ ((retryChain CONFIG 16 (init CONFIG)).map (fun s => connectAttempts s.trace) =
        some CONFIG.MAX_RETRIES) ∧
    retriesScheduled (handleConnectionError CONFIG { init CONFIG with retryCount := 14 }).trace
      = 1 := by
  decide

/-- C1, amended: starting from `retryCount = 0` with no retry scheduled, when
every connect attempt fails, the chain `connectModbus` →
`handleConnectionError` → scheduled retry ends and performs exactly
`MAX_RETRIES + 1` connect attempts in total, the first one and `MAX_RETRIES`
retries: `handleConnectionError` schedules a retry exactly when `retryCount`
is below `MAX_RETRIES` on entry, so it is after the `(MAX_RETRIES + 1)`-th
consecutive failure that it schedules no further retry. -/
theorem retryChain_connect_attempts (cfg : Config) (s : State) (fuel : Nat)
    (h0 : s.retryCount = 0) (hp : s.pendingRetries = 0) (hf : cfg.MAX_RETRIES + 1 ≤ fuel) :
    (∃ s1, retryChain cfg fuel s = some s1 ∧
      connectAttempts s1.trace = connectAttempts s.trace + (cfg.MAX_RETRIES + 1) ∧
      retriesScheduled s1.trace = retriesScheduled s.trace + cfg.MAX_RETRIES ∧
      s1.pendingRetries = 0 ∧ s1.retryCount = cfg.MAX_RETRIES + 1) ∧
    (∀ s2 : State, retriesScheduled (handleConnectionError cfg s2).trace =
      retriesScheduled s2.trace + if s2.retryCount < cfg.MAX_RETRIES then 1 else 0) := by
  refine ⟨?_, handleConnectionError_retriesScheduled cfg⟩
  obtain ⟨s1, h1, h2, h3, h4, h5⟩ := retryChain_from cfg fuel s hp (by omega) (by omega)
  rw [h0] at h2 h3
  exact ⟨s1, h1, by omega, by omega, h4, h5⟩

/-- C1, amended, at the configuration of the source: 16 attempts, 15
retries. -/
theorem retryChain_connect_attempts_witness :
    ∃ s1, retryChain CONFIG 16 (init CONFIG) = some s1 ∧
      connectAttempts s1.trace = connectAttempts (init CONFIG).trace + (CONFIG.MAX_RETRIES + 1) ∧
      retriesScheduled s1.trace = retriesScheduled (init CONFIG).trace + CONFIG.MAX_RETRIES ∧
      s1.pendingRetries = 0 ∧ s1.retryCount = CONFIG.MAX_RETRIES + 1 :=
  (retryChain_connect_attempts CONFIG (init CONFIG) 16 rfl rfl (by decide)).1

/-! ## The retry counter (C2) -/

/-- C2: after one `connectModbus` call in which a connect is attempted,
`retryCount` is 0 if the connect succeeded and its previous value plus 1 if
the connect failed; the outcomes success, failure, failure, success give the
`retryCount` sequence `[0, 1, 2, 0]`. -/
theorem connectModbus_retryCount_reset_or_increment (cfg : Config) (env : ConnectEnv)
    (s : State) :
    ((s.isOpen && env.closeThrows) = false → env.connectOk = true →
      (connectModbus cfg env s).retryCount = 0) ∧
    ((s.isOpen && env.closeThrows) = false → env.connectOk = false →
      (connectModbus cfg env s).retryCount = s.retryCount + 1) ∧
    retryCounts cfg s [true, false, false, true] = [0, 1, 2, 0] := by
  refine ⟨?_, ?_, ?_⟩
  · intro h1 h2
    rw [connectModbus_retryCount, h1, h2]
    simp
  · intro h1 h2
    rw [connectModbus_retryCount, h1, h2]
    simp
  · simp [retryCounts, connectModbus_retryCount]

/-- C2 at the start of the server: a first connect that succeeds leaves
`retryCount` at 0, one that fails leaves it at 1. -/
theorem connectModbus_retryCount_reset_or_increment_witness :
    (connectModbus CONFIG linkUp (init CONFIG)).retryCount = 0 ∧
    (connectModbus CONFIG linkDown (init CONFIG)).retryCount = (init CONFIG).retryCount + 1 :=
  ⟨(connectModbus_retryCount_reset_or_increment CONFIG linkUp (init CONFIG)).1 rfl rfl,
   (connectModbus_retryCount_reset_or_increment CONFIG linkDown (init CONFIG)).2.1 rfl rfl⟩

/-! ## Connecting while the link is open (C9) -/

/-- C9 as stated fails.  In the connected state of the source configuration
the link is open, and a `connectModbus` call whose connect fails closes the
session, attempts a connect, clears the poll timer and increments
`retryCount`. -/
theorem c9_connect_while_open_counterexample :
    (connected CONFIG).isOpen = true ∧
    ¬ (sessionCloses (connectModbus CONFIG linkDown (connected CONFIG)).trace =
        sessionCloses (connected CONFIG).trace) ∧
    ¬ (connectAttempts (connectModbus CONFIG linkDown (connected CONFIG)).trace =
        connectAttempts (connected CONFIG).trace) ∧
    ¬ ((connectModbus CONFIG linkDown (connected CONFIG)).modbusLoopInterval =
        (connected CONFIG).modbusLoopInterval) ∧
    ¬ ((connectModbus CONFIG linkDown (connected CONFIG)).retryCount =
        (connected CONFIG).retryCount) := by
  decide

/-- C9, amended: `connectModbus` has no guard on the state of the link.  It
always cancels the poll timer.  When the link is open it closes the session
and, unless that close throws, attempts a connect; when the link is not open
it closes nothing and attempts a connect.  The poll timer is set again only
by a successful connect, and `retryCount` becomes 0 on a successful connect
and grows by 1 otherwise. -/
theorem connectModbus_reconnects (cfg : Config) (env : ConnectEnv) (s : State) :
    Event.clearInterval s.modbusLoopInterval ∈ (connectModbus cfg env s).trace ∧
    (s.isOpen = true →
      sessionCloses (connectModbus cfg env s).trace = sessionCloses s.trace + 1 ∧
      connectAttempts (connectModbus cfg env s).trace =
        connectAttempts s.trace + if env.closeThrows = true then 0 else 1) ∧
    (s.isOpen = false →
      sessionCloses (connectModbus cfg env s).trace = sessionCloses s.trace ∧
      connectAttempts (connectModbus cfg env s).trace = connectAttempts s.trace + 1) ∧
    (connectModbus cfg env s).modbusLoopInterval =
      (if (s.isOpen && env.closeThrows) = true then none
        else if env.connectOk = true then some s.nextTimer else none) ∧
    (connectModbus cfg env s).retryCount =
      (if (s.isOpen && env.closeThrows) = true then s.retryCount + 1
        else if env.connectOk = true then 0 else s.retryCount + 1) := by
  refine ⟨connectModbus_clears_interval cfg env s, ?_, ?_,
    connectModbus_modbusLoopInterval cfg env s, connectModbus_retryCount cfg env s⟩
  · intro h
    rw [connectModbus_sessionCloses, connectModbus_connectAttempts, h]
    simp
  · intro h
    rw [connectModbus_sessionCloses, connectModbus_connectAttempts, h]
    simp

/-- C9, amended, in the connected state of the source configuration: one
more close and one more connect attempt. -/
theorem connectModbus_reconnects_witness :
    sessionCloses (connectModbus CONFIG linkUp (connected CONFIG)).trace =
      sessionCloses (connected CONFIG).trace + 1 ∧
    connectAttempts (connectModbus CONFIG linkUp (connected CONFIG)).trace =
      connectAttempts (connected CONFIG).trace + 1 :=
  (connectModbus_reconnects CONFIG linkUp (connected CONFIG)).2.1 rfl

/-! ## One poll tick -/

theorem connectInvocations_readEvents (reads : Nat → ReadOutcome)
    (ranges : List RegisterRange) :
    ∀ idx, connectInvocations (readEvents reads idx ranges) = 0 := by
  induction ranges with
  | nil => intro idx; simp [readEvents, connectInvocations]
  | cons r rest ih =>
    intro idx
    have := ih (idx + 1)
    unfold connectInvocations at this ⊢
    simp only [readEvents]
    cases reads idx <;> simp [List.count_cons, List.count_append, this]

theorem payloads_readEvents (reads : Nat → ReadOutcome) (ranges : List RegisterRange) :
    ∀ idx, payloads (readEvents reads idx ranges) = [] := by
  induction ranges with
  | nil => intro idx; simp [readEvents, payloads]
  | cons r rest ih =>
    intro idx
    have := ih (idx + 1)
    unfold payloads at this ⊢
    simp only [readEvents]
    cases reads idx <;> simp [List.filterMap_cons, List.filterMap_append, this]

theorem readRanges_isOpen_of_closed (reads : Nat → ReadOutcome) (ranges : List RegisterRange) :
    ∀ (idx : Nat) (buf : List JSValue) (s : State), s.isOpen = false →
      (readRanges reads idx ranges (buf, s)).2.isOpen = false := by
  induction ranges with
  | nil => intro idx buf s h; simpa [readRanges] using h
  | cons r rest ih =>
    intro idx buf s h
    simp only [readRanges]
    cases reads idx with
    | data d => exact ih _ _ _ h
    | error fatal => exact ih _ _ _ (by simp [h])

/-- A read that throws a transport-level error leaves the link closed at the
end of the loop. -/
theorem readRanges_isOpen_of_fatal (reads : Nat → ReadOutcome) (ranges : List RegisterRange) :
    ∀ (k idx : Nat) (buf : List JSValue) (s : State) (r : RegisterRange),
      ranges[k]? = some r → reads (idx + k) = ReadOutcome.error true →
      (readRanges reads idx ranges (buf, s)).2.isOpen = false := by
  induction ranges with
  | nil => intro k idx buf s r hk; simp at hk
  | cons r0 rest ih =>
    intro k idx buf s r hk hr
    simp only [readRanges]
    cases k with
    | zero =>
      simp only [Nat.add_zero] at hr
      rw [hr]
      exact readRanges_isOpen_of_closed reads rest _ _ _ (by simp)
    | succ k =>
      have hk1 : rest[k]? = some r := by simpa using hk
      have hr1 : reads (idx + 1 + k) = ReadOutcome.error true := by
        rw [← hr]; congr 1; omega
      cases reads idx with
      | data d => exact ih k _ _ _ r hk1 hr1
      | error fatal => exact ih k _ _ _ r hk1 hr1

theorem pollTick_of_closed (cfg : Config) (env : TickEnv) (s : State) (h : s.isOpen = false) :
    pollTick cfg env s = connectModbus cfg env.conn s := by
  simp [pollTick, h]

theorem pollTick_trace_of_open (cfg : Config) (env : TickEnv) (s : State)
    (h : s.isOpen = true) :
    (pollTick cfg env s).trace = traceAfter cfg env.reads s := by
  simp [pollTick, h, traceAfter, processBatchesSequential]

theorem pollTick_dataBuffer_of_open (cfg : Config) (env : TickEnv) (s : State)
    (h : s.isOpen = true) :
    (pollTick cfg env s).dataBuffer = bufferAfter cfg env.reads s := by
  simp [pollTick, h, bufferAfter, processBatchesSequential]

theorem pollTick_isOpen_of_open (cfg : Config) (env : TickEnv) (s : State)
    (h : s.isOpen = true) :
    (pollTick cfg env s).isOpen =
      (readRanges env.reads 0 cfg.REGISTER_RANGES (s.dataBuffer, s)).2.isOpen := by
  simp [pollTick, h, processBatchesSequential]

theorem pollTick_connectInvocations (cfg : Config) (env : TickEnv) (s : State) :
    connectInvocations (pollTick cfg env s).trace =
      connectInvocations s.trace + if s.isOpen = true then 0 else 1 := by
  cases h : s.isOpen with
  | false =>
    rw [pollTick_of_closed cfg env s h, connectModbus_connectInvocations]
    simp
  | true =>
    rw [pollTick_trace_of_open cfg env s h, traceAfter_eq]
    have := connectInvocations_readEvents env.reads cfg.REGISTER_RANGES 0
    unfold connectInvocations at this ⊢
    simp [List.count_append, List.count_cons, this]

theorem pollTick_readCalls_of_open (cfg : Config) (env : TickEnv) (s : State)
    (h : s.isOpen = true) :
    readCalls (pollTick cfg env s).trace =
      readCalls s.trace ++ cfg.REGISTER_RANGES.map (fun r => (r.start, r.length)) := by
  rw [pollTick_trace_of_open cfg env s h, traceAfter_eq]
  have := readCalls_readEvents env.reads cfg.REGISTER_RANGES 0
  unfold readCalls at this ⊢
  rw [List.filterMap_append, List.filterMap_append, this]
  simp

theorem pollTick_payloads_of_open (cfg : Config) (env : TickEnv) (s : State)
    (h : s.isOpen = true) :
    payloads (pollTick cfg env s).trace =
      payloads s.trace ++ [bufferAfter cfg env.reads s] := by
  rw [pollTick_trace_of_open cfg env s h, traceAfter_eq]
  have := payloads_readEvents env.reads cfg.REGISTER_RANGES 0
  unfold payloads at this ⊢
  rw [List.filterMap_append, List.filterMap_append, this]
  simp

/-! ## Range errors do not reconnect (C6) -/

/-- C6 as stated fails.  With two ranges and an open link, a tick whose
first read throws a transport-level error still reads the second range, and
the tick does not invoke `connectModbus`. -/
theorem c6_fatal_read_counterexample :
    (connected twoRanges).isOpen = true ∧
    fatalFirst.reads 0 = ReadOutcome.error true ∧
    ¬ (readCalls (pollTick twoRanges fatalFirst (connected twoRanges)).trace =
        readCalls (connected twoRanges).trace ++ [(0, 2)]) ∧
    ¬ (connectInvocations (pollTick twoRanges fatalFirst (connected twoRanges)).trace =
        connectInvocations (connected twoRanges).trace + 1) := by
  decide

/-- C6, amended: in a poll tick that starts with the link open, a read that
throws, whatever the error, is caught inside the loop: every configured range
is still read, in declaration order, and the tick does not invoke
`connectModbus`.  When the error was a transport-level one that left the link
closed, it is the next tick that invokes `connectModbus`, and that tick reads
no range. -/
theorem pollTick_read_error_contained (cfg : Config) (env : TickEnv) (s : State)
    (hopen : s.isOpen = true) :
    readCalls (pollTick cfg env s).trace =
      readCalls s.trace ++ cfg.REGISTER_RANGES.map (fun r => (r.start, r.length)) ∧
    connectInvocations (pollTick cfg env s).trace = connectInvocations s.trace ∧
    (∀ k r, cfg.REGISTER_RANGES[k]? = some r → env.reads k = ReadOutcome.error true →
      (pollTick cfg env s).isOpen = false ∧
      ∀ env2 : TickEnv,
        connectInvocations (pollTick cfg env2 (pollTick cfg env s)).trace =
          connectInvocations s.trace + 1 ∧
        readCalls (pollTick cfg env2 (pollTick cfg env s)).trace =
          readCalls (pollTick cfg env s).trace) := by
  have hinv : connectInvocations (pollTick cfg env s).trace = connectInvocations s.trace := by
    rw [pollTick_connectInvocations, hopen]; simp
  refine ⟨pollTick_readCalls_of_open cfg env s hopen, hinv, ?_⟩
  intro k r hk hr
  have hclosed : (pollTick cfg env s).isOpen = false := by
    rw [pollTick_isOpen_of_open cfg env s hopen]
    exact readRanges_isOpen_of_fatal env.reads _ k 0 _ _ r hk (by rw [Nat.zero_add]; exact hr)
  refine ⟨hclosed, fun env2 => ⟨?_, ?_⟩⟩
  · rw [pollTick_connectInvocations, hclosed, hinv]; simp
  · rw [pollTick_of_closed cfg env2 _ hclosed, connectModbus_readCalls]

/-- C6, amended, at two ranges with a transport-level error on the first:
both ranges are read and no reconnect is made in the tick. -/
theorem pollTick_read_error_contained_witness :
    readCalls (pollTick twoRanges fatalFirst (connected twoRanges)).trace =
      readCalls (connected twoRanges).trace ++ [(0, 2), (2, 2)] ∧
    connectInvocations (pollTick twoRanges fatalFirst (connected twoRanges)).trace =
      connectInvocations (connected twoRanges).trace :=
  ⟨(pollTick_read_error_contained twoRanges fatalFirst (connected twoRanges) rfl).1,
   (pollTick_read_error_contained twoRanges fatalFirst (connected twoRanges) rfl).2.1⟩

/-! ## When a tick reconnects (C7) -/

/-- C7: a poll tick invokes `connectModbus` exactly when `client.isOpen` is
false at the start of the tick (once then, never otherwise, whatever the
reads do); in that case it reads no range, leaves `dataBuffer` unchanged and
emits nothing. -/
theorem pollTick_reconnects_iff_closed (cfg : Config) (env : TickEnv) (s : State) :
    connectInvocations (pollTick cfg env s).trace =
      connectInvocations s.trace + (if s.isOpen = true then 0 else 1) ∧
    (s.isOpen = false →
      readCalls (pollTick cfg env s).trace = readCalls s.trace ∧
      (pollTick cfg env s).dataBuffer = s.dataBuffer ∧
      broadcasts (pollTick cfg env s).trace = broadcasts s.trace ∧
      payloads (pollTick cfg env s).trace = payloads s.trace) := by
  refine ⟨pollTick_connectInvocations cfg env s, ?_⟩
  intro h
  rw [pollTick_of_closed cfg env s h]
  exact ⟨connectModbus_readCalls _ _ _, connectModbus_dataBuffer _ _ _,
    connectModbus_broadcasts _ _ _, connectModbus_payloads _ _ _⟩

/-- C7 at the first tick of a server whose link is still closed. -/
theorem pollTick_reconnects_iff_closed_witness :
    readCalls (pollTick CONFIG (allAnswer [1]) (init CONFIG)).trace =
      readCalls (init CONFIG).trace ∧
    (pollTick CONFIG (allAnswer [1]) (init CONFIG)).dataBuffer = (init CONFIG).dataBuffer ∧
    broadcasts (pollTick CONFIG (allAnswer [1]) (init CONFIG)).trace =
      broadcasts (init CONFIG).trace ∧
    payloads (pollTick CONFIG (allAnswer [1]) (init CONFIG)).trace =
      payloads (init CONFIG).trace :=
  (pollTick_reconnects_iff_closed CONFIG (allAnswer [1]) (init CONFIG)).2 rfl

/-! ## The snapshot for a new observer (C8) -/

/-- C8: the `'connection'` handler emits exactly one `'modbusData'` message,
on the socket of the observer that connected, with `dataBuffer` as it is at
that time as payload; it leaves `dataBuffer` unchanged, broadcasts nothing,
and adds nothing to what any other observer receives. -/
theorem onConnection_sends_snapshot (socket : Nat) (s : State) :
    sentOnSocket socket (onConnection socket s).trace =
      sentOnSocket socket s.trace ++ [s.dataBuffer] ∧
    payloads (onConnection socket s).trace = payloads s.trace ++ [s.dataBuffer] ∧
    (onConnection socket s).dataBuffer = s.dataBuffer ∧
    broadcasts (onConnection socket s).trace = broadcasts s.trace ∧
    (∀ o, o ≠ socket →
      deliveredTo o (onConnection socket s).trace = deliveredTo o s.trace) := by
  refine ⟨?_, ?_, rfl, ?_, ?_⟩
  · simp [onConnection, sentOnSocket, List.filterMap_append, List.filterMap_cons]
  · simp [onConnection, payloads, List.filterMap_append, List.filterMap_cons]
  · simp [onConnection, broadcasts, List.filterMap_append, List.filterMap_cons]
  · intro o ho
    simp [onConnection, deliveredTo, List.filterMap_append, List.filterMap_cons, Ne.symm ho]

/-- C8 for observer 7 joining a connected server while observer 3 listens. -/
theorem onConnection_sends_snapshot_witness :
    deliveredTo 3 (onConnection 7 (connected CONFIG)).trace =
      deliveredTo 3 (connected CONFIG).trace :=
  (onConnection_sends_snapshot 7 (connected CONFIG)).2.2.2.2 3 (by decide)

/-! ## The order of shutdown (C10) -/

/-- C10 as stated fails.  In the connected state of the source
configuration, `shutdown` calls `io.close` before it closes the Modbus
session, not after. -/
theorem c10_shutdown_order_counterexample :
    (connected CONFIG).isOpen = true ∧
    ¬ occursBefore Event.clientClose Event.ioClose (shutdown false (connected CONFIG)).trace ∧
    occursBefore Event.ioClose Event.clientClose (shutdown false (connected CONFIG)).trace := by
  decide

/-- C10, amended: when `shutdown` runs with the Modbus link open, its calls
occur in this order: the poll timer is cancelled first, then `io.close` is
called, then the Modbus session is closed, then `server.close` is called and
the forced-exit timer is set; a failure of the session close is caught and
logged and does not prevent the later steps. -/
theorem shutdown_order (closeThrows : Bool) (s : State) (hopen : s.isOpen = true) :
    (shutdown closeThrows s).trace =
      s.trace ++
        [Event.log LogMsg.shutdownInitiated,
         Event.clearInterval s.modbusLoopInterval,
         Event.ioClose,
         Event.clientClose,
         Event.log (if closeThrows = true then LogMsg.errorClosingModbus
           else LogMsg.modbusClosed),
         Event.serverClose,
         Event.forceExitTimer 3000] := by
  cases closeThrows <;> simp [shutdown, hopen]

/-- C10, amended, in the connected state of the source configuration with a
session close that throws. -/
theorem shutdown_order_witness :
    (shutdown true (connected CONFIG)).trace =
      (connected CONFIG).trace ++
        [Event.log LogMsg.shutdownInitiated,
         Event.clearInterval (some 0),
         Event.ioClose,
         Event.clientClose,
         Event.log LogMsg.errorClosingModbus,
         Event.serverClose,
         Event.forceExitTimer 3000] :=
  shutdown_order true (connected CONFIG) rfl

/-! ## The length of the buffer (C5) -/

theorem onConnection_payloads (socket : Nat) (s : State) :
    payloads (onConnection socket s).trace = payloads s.trace ++ [s.dataBuffer] := by
  simp [onConnection, payloads, List.filterMap_append, List.filterMap_cons]

/-- One step keeps the length of `dataBuffer` and of every payload emitted so
far, when the ranges are in bounds and no response of a tick is longer than
requested. -/
theorem step_keeps_length (cfg : Config) (s : State) (st : Step)
    (hin : ∀ r ∈ cfg.REGISTER_RANGES, r.start + r.length ≤ cfg.TOTAL_REGISTERS)
    (hlen : ∀ env, st = Step.tick env → ∀ k r d, cfg.REGISTER_RANGES[k]? = some r →
      env.reads k = ReadOutcome.data d → d.length ≤ r.length)
    (hbuf : s.dataBuffer.length = cfg.TOTAL_REGISTERS)
    (hpay : ∀ p ∈ payloads s.trace, p.length = cfg.TOTAL_REGISTERS) :
    (step cfg s st).dataBuffer.length = cfg.TOTAL_REGISTERS ∧
    ∀ p ∈ payloads (step cfg s st).trace, p.length = cfg.TOTAL_REGISTERS := by
  cases st with
  | startup env =>
    simp only [step]
    rw [connectModbus_dataBuffer, connectModbus_payloads]
    exact ⟨hbuf, hpay⟩
  | retryFires env =>
    simp only [step]
    split
    · rw [connectModbus_dataBuffer, connectModbus_payloads]
      exact ⟨hbuf, hpay⟩
    · exact ⟨hbuf, hpay⟩
  | connection socket =>
    simp only [step]
    rw [onConnection_payloads]
    refine ⟨hbuf, ?_⟩
    intro p hp
    rcases List.mem_append.mp hp with h | h
    · exact hpay p h
    · simp only [List.mem_singleton] at h
      rw [h]; exact hbuf
  | tick env =>
    simp only [step]
    cases hopen : s.isOpen with
    | false =>
      rw [pollTick_of_closed cfg env s hopen, connectModbus_dataBuffer, connectModbus_payloads]
      exact ⟨hbuf, hpay⟩
    | true =>
      have hb : (bufferAfter cfg env.reads s).length = cfg.TOTAL_REGISTERS := by
        rw [bufferAfter_eq, readRanges_fst_length, hbuf]
        intro k r d hk hd
        rw [Nat.zero_add] at hd
        have h1 := hin r (List.getElem?_mem hk)
        have h2 := hlen env rfl k r d hk hd
        omega
      rw [pollTick_dataBuffer_of_open cfg env s hopen, pollTick_payloads_of_open cfg env s hopen]
      refine ⟨hb, ?_⟩
      intro p hp
      rcases List.mem_append.mp hp with h | h
      · exact hpay p h
      · simp only [List.mem_singleton] at h
        rw [h]; exact hb

theorem run_keeps_length (cfg : Config)
    (hin : ∀ r ∈ cfg.REGISTER_RANGES, r.start + r.length ≤ cfg.TOTAL_REGISTERS) :
    ∀ (steps : List Step) (s : State),
      (∀ env, Step.tick env ∈ steps → ∀ k r d, cfg.REGISTER_RANGES[k]? = some r →
        env.reads k = ReadOutcome.data d → d.length ≤ r.length) →
      s.dataBuffer.length = cfg.TOTAL_REGISTERS →
      (∀ p ∈ payloads s.trace, p.length = cfg.TOTAL_REGISTERS) →
      (run cfg s steps).dataBuffer.length = cfg.TOTAL_REGISTERS ∧
      ∀ p ∈ payloads (run cfg s steps).trace, p.length = cfg.TOTAL_REGISTERS := by
  intro steps
  induction steps with
  | nil => intro s _ hbuf hpay; exact ⟨hbuf, hpay⟩
  | cons st rest ih =>
    intro s hlen hbuf hpay
    have h1 := step_keeps_length cfg s st hin
      (fun env he => hlen env (by rw [he]; exact List.mem_cons_self _ _)) hbuf hpay
    exact ih (step cfg s st) (fun env he => hlen env (List.mem_cons_of_mem _ he)) h1.1 h1.2

set_option maxRecDepth 8000

/-- C5 as stated fails.  With the source configuration (one range `[0, 70)`,
70 registers), a tick whose read returns 71 registers leaves `dataBuffer`,
and the payload broadcast by that tick, with 71 elements. -/
theorem c5_buffer_length_counterexample :
    ¬ ((run CONFIG (init CONFIG)
          [Step.startup linkUp, Step.tick (allAnswer (List.replicate 71 1))]).dataBuffer.length
        = CONFIG.TOTAL_REGISTERS) ∧
    ¬ (∀ p ∈ payloads (run CONFIG (init CONFIG)
          [Step.startup linkUp, Step.tick (allAnswer (List.replicate 71 1))]).trace,
        p.length = CONFIG.TOTAL_REGISTERS) := by
  decide

/-- C5, amended: when the configured ranges lie inside
`[0, TOTAL_REGISTERS)`, for every sequence of starts, retries, poll ticks and
observer connections, and every outcome of the reads in which no response is
longer than the length requested (thrown reads and shorter responses
included), `dataBuffer`, and the payload of every `'modbusData'` message
emitted, has length exactly `TOTAL_REGISTERS`. -/
theorem run_dataBuffer_length (cfg : Config) (steps : List Step)
    (hin : ∀ r ∈ cfg.REGISTER_RANGES, r.start + r.length ≤ cfg.TOTAL_REGISTERS)
    (hlen : ∀ env, Step.tick env ∈ steps → ∀ k r d, cfg.REGISTER_RANGES[k]? = some r →
      env.reads k = ReadOutcome.data d → d.length ≤ r.length) :
    (run cfg (init cfg) steps).dataBuffer.length = cfg.TOTAL_REGISTERS ∧
    ∀ p ∈ payloads (run cfg (init cfg) steps).trace, p.length = cfg.TOTAL_REGISTERS := by
  apply run_keeps_length cfg hin steps (init cfg) hlen
  · simp [init]
  · intro p hp
    simp [init, payloads] at hp

/-- C5, amended, at the source configuration: a start, a tick whose read
returns a single register, and an observer connecting. -/
theorem run_dataBuffer_length_witness :
    (run CONFIG (init CONFIG)
      [Step.startup linkUp, Step.tick (allAnswer [1]), Step.connection 7]).dataBuffer.length
      = CONFIG.TOTAL_REGISTERS ∧
    ∀ p ∈ payloads (run CONFIG (init CONFIG)
      [Step.startup linkUp, Step.tick (allAnswer [1]), Step.connection 7]).trace,
      p.length = CONFIG.TOTAL_REGISTERS := by
  apply run_dataBuffer_length CONFIG _ (by decide)
  intro env he k r d hk hd
  simp only [List.mem_cons, Step.tick.injEq, List.mem_singleton, reduceCtorEq, false_or,
    or_false, List.not_mem_nil] at he
  subst he
  simp only [allAnswer, ReadOutcome.data.injEq] at hd
  match k with
  | 0 =>
    simp only [CONFIG, List.getElem?_cons_zero, Option.some.injEq] at hk
    subst hk; subst hd; simp
  | k + 1 => simp [CONFIG] at hk

end PumpStation
